import Mathlib

/-!
Shallow embedding of `pkg/utils/utils.go` (repository vega-punk/kos).

The identity-resolution cache (package-level maps `uids`, `gids`, `users`,
`groups` plus the four operations `UserName`, `GroupName`, `LookupUser`,
`LookupGroup`) is modelled by explicit state passing: the four Go maps become
four association lists inside `CacheState`, the platform identity service
(`os/user`) becomes an oracle record `IdentityService`, and each operation
returns its value, the updated state, and the number of external identity
queries it performed.  Go map assignment `m[k] = v` (performed only on a cache
miss) is modelled by prepending the binding, which `alookup` resolves exactly
like a Go map read.  `strconv.Itoa` becomes `itoa`, `strconv.Atoi` becomes
`atoi?` (the error return becomes `Option`); the ignored error of
`uid, _ = strconv.Atoi(...)` becomes `atoiOrZero` since Go's `Atoi` yields 0
with an error on a malformed string.  The logger is observability only and is
not modelled.  `Exists`, `GetLocalIp` and `WithTimeout` wrap external effects
(filesystem stat, network dial, goroutine plus timer); those effects are
oracles as well, and for `WithTimeout` the nondeterministic `select` between
the done channel and the timer is abstracted into a boolean saying which arm
fired first.  `RemovePassword` is pure and is translated verbatim over
`List Char` (Go byte indices coincide with character indices on the separator
characters involved, which are all single-byte).
-/

namespace Utils

/-- Association-list lookup, modelling a Go map read (`v, ok := m[k]`):
the most recently written binding for a key wins. -/
def alookup {α β : Type} [DecidableEq α] : List (α × β) → α → Option β
  | [], _ => none
  | (k, v) :: rest, key => if key = k then some v else alookup rest key

/-- Helper for `atoi?`: value of a nonempty all-digit string, `none` on any
non-digit. -/
def digitsToNatAux : List Char → Nat → Option Nat
  | [], acc => some acc
  | c :: rest, acc =>
    if c.isDigit then digitsToNatAux rest (acc * 10 + (c.toNat - 48)) else none

/-- Value of a nonempty string of decimal digits, `none` if empty or any
character is not a digit. -/
def digitsToNat (l : List Char) : Option Nat :=
  match l with
  | [] => none
  | _ :: _ => digitsToNatAux l 0

/-- Model of Go `strconv.Atoi`: optional sign followed by at least one digit,
nothing else; `none` models the error return.  (Go's fixed-width overflow is
not modelled; no claim depends on it.) -/
def atoi? (s : String) : Option Int :=
  match s.data with
  | [] => none
  | '+' :: rest => (digitsToNat rest).map (fun n => (n : Int))
  | '-' :: rest => (digitsToNat rest).map (fun n => -(n : Int))
  | _ :: _ => (digitsToNat s.data).map (fun n => (n : Int))

/-- Model of Go `strconv.Itoa`: decimal string form of an integer. -/
def itoa (i : Int) : String := toString i

/-- Model of `n, _ = strconv.Atoi(s)`: Go's `Atoi` returns 0 together with the
error on a malformed string, and the code ignores the error. -/
def atoiOrZero (s : String) : Int := (atoi? s).getD 0

/-- Oracle for the platform identity service (`os/user`).  Each field models
one lookup call; `none` models the error return (unknown id/name or lookup
failure).  `lookup` and `lookupGroup` return the `Uid`/`Gid` field of the
found record, which in Go is a string. -/
structure IdentityService where
  lookupId : Int → Option String
  lookupGroupId : Int → Option String
  lookup : String → Option String
  lookupGroup : String → Option String

/-- The four package-level Go maps (`uids`, `gids`, `users`, `groups`). -/
structure CacheState where
  uids : List (Int × String)
  gids : List (Int × String)
  users : List (String × Int)
  groups : List (String × Int)
deriving DecidableEq

/-- The maps as initialised by `make(map[...]...)`: all empty. -/
def emptyCache : CacheState := ⟨[], [], [], []⟩

/-- Result of a name-returning operation: returned value, cache state after
the call, and how many external identity queries the call performed. -/
structure NameResult where
  value : String
  state : CacheState
  queries : Nat
deriving DecidableEq

/-- Result of an id-returning operation. -/
structure IdResult where
  value : Int
  state : CacheState
  queries : Nat
deriving DecidableEq

/-- Go `func UserName(uid int) string` (utils.go:130-144): cached name if
present, otherwise one `user.LookupId` query; on success the username is
stored and returned, on failure `strconv.Itoa(uid)` is stored and returned. -/
def UserName (svc : IdentityService) (st : CacheState) (uid : Int) : NameResult :=
  match alookup st.uids uid with
  | some name => ⟨name, st, 0⟩
  | none =>
    let name :=
      match svc.lookupId uid with
      | some u => u
      | none => itoa uid
    ⟨name, { st with uids := (uid, name) :: st.uids }, 1⟩

/-- Go `func GroupName(gid int) string` (utils.go:146-160), symmetric to
`UserName` with `user.LookupGroupId`. -/
def GroupName (svc : IdentityService) (st : CacheState) (gid : Int) : NameResult :=
  match alookup st.gids gid with
  | some name => ⟨name, st, 0⟩
  | none =>
    let name :=
      match svc.lookupGroupId gid with
      | some g => g
      | none => itoa gid
    ⟨name, { st with gids := (gid, name) :: st.gids }, 1⟩

/-- Go `func LookupUser(name string) int` (utils.go:162-180): cached id if
present; otherwise one `user.Lookup` query; on success `Atoi(u.Uid)` with the
error ignored; on failure the name itself parsed as an integer, else -1.  The
computed id is stored in every miss case. -/
def LookupUser (svc : IdentityService) (st : CacheState) (name : String) : IdResult :=
  match alookup st.users name with
  | some u => ⟨u, st, 0⟩
  | none =>
    let uid : Int :=
      match svc.lookup name with
      | some uidStr => atoiOrZero uidStr
      | none =>
        match atoi? name with
        | some g => g
        | none => -1
    ⟨uid, { st with users := (name, uid) :: st.users }, 1⟩

/-- Go `func LookupGroup(name string) int` (utils.go:182-200), symmetric to
`LookupUser` with `user.LookupGroup`. -/
def LookupGroup (svc : IdentityService) (st : CacheState) (name : String) : IdResult :=
  match alookup st.groups name with
  | some u => ⟨u, st, 0⟩
  | none =>
    let gid : Int :=
      match svc.lookupGroup name with
      | some gidStr => atoiOrZero gidStr
      | none =>
        match atoi? name with
        | some g => g
        | none => -1
    ⟨gid, { st with groups := (name, gid) :: st.groups }, 1⟩

/-- Model of the error returned by `os.Stat`: the only observable the code
uses is whether `os.IsNotExist` holds for it. -/
structure StatErr where
  isNotExist : Bool
deriving DecidableEq

/-- Go `func Exists(path string) bool` (utils.go:28-31):
`_, err := os.Stat(path); return err == nil || !os.IsNotExist(err)`.
The filesystem stat is the oracle `stat`; `none` models a nil error. -/
def Exists (stat : String → Option StatErr) (path : String) : Bool :=
  match stat path with
  | none => true
  | some err => !err.isNotExist

/-- Go `func GetLocalIp(address string) (string, error)` (utils.go:43-53).
`dial` models `net.Dial("udp", address)` returning the connection's local
address string; `splitHostPort` models `net.SplitHostPort` returning the
host/port pair.  The Go pair `(string, error)` becomes
`String × Option E`. -/
def GetLocalIp {E : Type} (dial : String → Except E String)
    (splitHostPort : String → Except E (String × String))
    (address : String) : String × Option E :=
  match dial address with
  | .error e => ("", some e)
  | .ok localAddr =>
    match splitHostPort localAddr with
    | .error e => ("", some e)
    | .ok (ip, _) => (ip, none)

/-- Go `func WithTimeout(f func() error, timeout time.Duration) error`
(utils.go:55-70).  The goroutine runs `f` and signals a channel; `select`
races that channel against a timer.  `fResult` is the error value `f`
returns (`none` for nil), `timeoutErr` the error built by
`fmt.Errorf("timeout after %s", timeout)`, and `fCompleted` says whether the
done channel won the race (true exactly when `f` completes before the
timeout fires). -/
def WithTimeout {E : Type} (fResult : Option E) (timeoutErr : E)
    (fCompleted : Bool) : Option E :=
  if fCompleted then fResult else some timeoutErr

/-- Position of the first occurrence of pattern `pat` in `s` at offset `i` or
later, as an absolute index; `none` if there is none.  Mirrors the scan of Go
`strings.Index`. -/
def indexOfAux (pat : List Char) : List Char → Nat → Option Nat
  | [], i => if pat.isPrefixOf ([] : List Char) then some i else none
  | c :: rest, i =>
    if pat.isPrefixOf (c :: rest) then some i else indexOfAux pat rest (i + 1)

/-- Go `strings.Index(s, pat)`: index of the first occurrence of `pat` in
`s`, or -1. -/
def indexOf (s pat : List Char) : Int :=
  match indexOfAux pat s 0 with
  | some n => (n : Int)
  | none => -1

/-- Go `func RemovePassword(uri string) string` (utils.go:72-86), verbatim:
`p` is the index of the first `@` (input returned unchanged if absent);
`sp` is the index just past `://`, or 0 when `://` is absent; `cp` is the
index, relative to `sp`, of the first `:` at or after `sp`; if there is none,
or it lies past the first `@`, the input is returned unchanged; otherwise the
text strictly between that `:` and the first `@` is replaced by `****`. -/
def RemovePassword (uri : List Char) : List Char :=
  let p : Int := indexOf uri ['@']
  if p < 0 then uri
  else
    let sp1 : Int := indexOf uri [':', '/', '/'] + 3
    let sp : Int := if sp1 = 2 then 0 else sp1
    let cp : Int := indexOf (uri.drop sp.toNat) [':']
    if cp < 0 ∨ sp + cp > p then uri
    else uri.take (sp + cp).toNat ++ [':', '*', '*', '*', '*'] ++ uri.drop p.toNat

/-- First index of character `c` in `s` (specification-side counterpart of
`indexOf s [c]`, defined by plain recursion so that claims can be stated
against it and related to the code's scan by a proved lemma). -/
def firstIdx (s : List Char) (c : Char) : Option Nat :=
  match s with
  | [] => none
  | x :: rest => if x = c then some 0 else (firstIdx rest c).map (fun n => n + 1)

/-- Index in `uri` at which the userinfo section starts for the purpose of
`RemovePassword`: just past the first `://`, or 0 when there is none. -/
def schemeStart (uri : List Char) : Nat :=
  match indexOfAux [':', '/', '/'] uri 0 with
  | some n => n + 3
  | none => 0

/-- Both cache states map every key an older state maps, to the same value
(per mapping).  This is the cache-growth relation the four operations
preserve. -/
def cacheExtends (st st' : CacheState) : Prop :=
  (∀ k v, alookup st.uids k = some v → alookup st'.uids k = some v) ∧
  (∀ k v, alookup st.gids k = some v → alookup st'.gids k = some v) ∧
  (∀ k v, alookup st.users k = some v → alookup st'.users k = some v) ∧
  (∀ k v, alookup st.groups k = some v → alookup st'.groups k = some v)

end Utils

namespace Utils

/-- Concrete identity service used for witnesses and the spec's scenario:
exactly one user, alice with uid 1000, and nothing else resolvable. -/
def aliceSvc : IdentityService where
  lookupId := fun _ => none
  lookupGroupId := fun _ => none
  lookup := fun s => if s = "alice" then some ("1000") else none
  lookupGroup := fun _ => none

/-- Concrete nonempty cache state used for witnesses. -/
def cachedState : CacheState :=
  ⟨[(5, ("five"))], [(6, ("staff"))], [(("root"), 0)], [(("wheel"), 0)]⟩

/-- Inserting a binding for a key that is absent preserves every existing
binding of an association list. -/
theorem alookup_insert_preserve {α β : Type} [DecidableEq α] {m : List (α × β)} {i : α}
    {n : β} (hmiss : alookup m i = none) :
    ∀ k v, alookup m k = some v → alookup ((i, n) :: m) k = some v := by
  intro k v hk
  by_cases hki : k = i
  · subst hki
    rw [hk] at hmiss
    cases hmiss
  · simp [alookup, hki, hk]

/-- `cacheExtends` is reflexive. -/
theorem cacheExtends_refl (st : CacheState) : cacheExtends st st :=
  ⟨fun _ _ h => h, fun _ _ h => h, fun _ _ h => h, fun _ _ h => h⟩

/-- `UserName` only ever grows the cache. -/
theorem userName_extends (svc : IdentityService) (st : CacheState) (uid : Int) :
    cacheExtends st (UserName svc st uid).state := by
  cases h : alookup st.uids uid with
  | some v =>
    have hst : (UserName svc st uid).state = st := by simp [UserName, h]
    rw [hst]
    exact cacheExtends_refl st
  | none =>
    have hst : (UserName svc st uid).state
        = { st with uids := (uid, (UserName svc st uid).value) :: st.uids } := by
      simp [UserName, h]
    rw [hst]
    exact ⟨alookup_insert_preserve h, fun _ _ hk => hk, fun _ _ hk => hk, fun _ _ hk => hk⟩

/-- `GroupName` only ever grows the cache. -/
theorem groupName_extends (svc : IdentityService) (st : CacheState) (gid : Int) :
    cacheExtends st (GroupName svc st gid).state := by
  cases h : alookup st.gids gid with
  | some v =>
    have hst : (GroupName svc st gid).state = st := by simp [GroupName, h]
    rw [hst]
    exact cacheExtends_refl st
  | none =>
    have hst : (GroupName svc st gid).state
        = { st with gids := (gid, (GroupName svc st gid).value) :: st.gids } := by
      simp [GroupName, h]
    rw [hst]
    exact ⟨fun _ _ hk => hk, alookup_insert_preserve h, fun _ _ hk => hk, fun _ _ hk => hk⟩

/-- `LookupUser` only ever grows the cache. -/
theorem lookupUser_extends (svc : IdentityService) (st : CacheState) (name : String) :
    cacheExtends st (LookupUser svc st name).state := by
  cases h : alookup st.users name with
  | some v =>
    have hst : (LookupUser svc st name).state = st := by simp [LookupUser, h]
    rw [hst]
    exact cacheExtends_refl st
  | none =>
    have hst : (LookupUser svc st name).state
        = { st with users := (name, (LookupUser svc st name).value) :: st.users } := by
      simp [LookupUser, h]
    rw [hst]
    exact ⟨fun _ _ hk => hk, fun _ _ hk => hk, alookup_insert_preserve h, fun _ _ hk => hk⟩

/-- `LookupGroup` only ever grows the cache. -/
theorem lookupGroup_extends (svc : IdentityService) (st : CacheState) (name : String) :
    cacheExtends st (LookupGroup svc st name).state := by
  cases h : alookup st.groups name with
  | some v =>
    have hst : (LookupGroup svc st name).state = st := by simp [LookupGroup, h]
    rw [hst]
    exact cacheExtends_refl st
  | none =>
    have hst : (LookupGroup svc st name).state
        = { st with groups := (name, (LookupGroup svc st name).value) :: st.groups } := by
      simp [LookupGroup, h]
    rw [hst]
    exact ⟨fun _ _ hk => hk, fun _ _ hk => hk, fun _ _ hk => hk, alookup_insert_preserve h⟩

end Utils

/-- C1: for every uid not previously seen (no cached entry), `UserName`
returns the platform's registered user name when the lookup succeeds and the
decimal string form of the uid otherwise; in either case the result is stored
under the uid, exactly one platform query is made, and a second call with the
same uid returns the identical value with zero further platform queries. -/
theorem userName_fresh_resolves_caches (svc : Utils.IdentityService)
    (st : Utils.CacheState) (uid : Int)
    (h : Utils.alookup st.uids uid = none) :
    (∀ n, svc.lookupId uid = some n → (Utils.UserName svc st uid).value = n) ∧
    (svc.lookupId uid = none → (Utils.UserName svc st uid).value = Utils.itoa uid) ∧
    (Utils.UserName svc st uid).queries = 1 ∧
    Utils.alookup (Utils.UserName svc st uid).state.uids uid
      = some (Utils.UserName svc st uid).value ∧
    (Utils.UserName svc (Utils.UserName svc st uid).state uid).value
      = (Utils.UserName svc st uid).value ∧
    (Utils.UserName svc (Utils.UserName svc st uid).state uid).queries = 0 := by
  cases hl : svc.lookupId uid <;> simp [Utils.UserName, Utils.alookup, h, hl]

/-- C1 witness: uid 7 is unknown both to the empty cache and to `aliceSvc`,
so the first call falls back to the decimal string and performs one query. -/
theorem userName_fresh_resolves_caches_witness :
    (Utils.UserName Utils.aliceSvc Utils.emptyCache 7).value = Utils.itoa 7 ∧
    (Utils.UserName Utils.aliceSvc Utils.emptyCache 7).queries = 1 :=
  ⟨(userName_fresh_resolves_caches Utils.aliceSvc Utils.emptyCache 7 rfl).2.1 rfl,
   (userName_fresh_resolves_caches Utils.aliceSvc Utils.emptyCache 7 rfl).2.2.1⟩

/-- C2: each of the four resolution operations is idempotent: calling it
twice with the same input yields the same output both times, and the two
calls together perform at most one external identity query. -/
theorem resolution_ops_idempotent (svc : Utils.IdentityService)
    (st : Utils.CacheState) (uid gid : Int) (uname gname : String) :
    ((Utils.UserName svc (Utils.UserName svc st uid).state uid).value
        = (Utils.UserName svc st uid).value ∧
      (Utils.UserName svc st uid).queries
        + (Utils.UserName svc (Utils.UserName svc st uid).state uid).queries ≤ 1) ∧
    ((Utils.GroupName svc (Utils.GroupName svc st gid).state gid).value
        = (Utils.GroupName svc st gid).value ∧
      (Utils.GroupName svc st gid).queries
        + (Utils.GroupName svc (Utils.GroupName svc st gid).state gid).queries ≤ 1) ∧
    ((Utils.LookupUser svc (Utils.LookupUser svc st uname).state uname).value
        = (Utils.LookupUser svc st uname).value ∧
      (Utils.LookupUser svc st uname).queries
        + (Utils.LookupUser svc (Utils.LookupUser svc st uname).state uname).queries ≤ 1) ∧
    ((Utils.LookupGroup svc (Utils.LookupGroup svc st gname).state gname).value
        = (Utils.LookupGroup svc st gname).value ∧
      (Utils.LookupGroup svc st gname).queries
        + (Utils.LookupGroup svc (Utils.LookupGroup svc st gname).state gname).queries ≤ 1) := by
  refine ⟨?_, ?_, ?_, ?_⟩
  · cases h : Utils.alookup st.uids uid <;> simp [Utils.UserName, Utils.alookup, h]
  · cases h : Utils.alookup st.gids gid <;> simp [Utils.GroupName, Utils.alookup, h]
  · cases h : Utils.alookup st.users uname <;> simp [Utils.LookupUser, Utils.alookup, h]
  · cases h : Utils.alookup st.groups gname <;> simp [Utils.LookupGroup, Utils.alookup, h]

/-- C3: every name the identity service does not resolve but which parses as
a decimal integer resolves (on a cache miss) to that integer; and in the
concrete scenario where only alice (uid 1000) is registered, starting from an
empty cache, `LookupUser "alice"` returns 1000, then `LookupUser "1000"`
returns 1000 (parsed as an integer), then `LookupUser "ghost"` returns -1. -/
theorem resolveUid_numeric_fallback :
    (∀ (svc : Utils.IdentityService) (st : Utils.CacheState) (name : String) (n : Int),
      Utils.alookup st.users name = none → svc.lookup name = none →
      Utils.atoi? name = some n → (Utils.LookupUser svc st name).value = n) ∧
    (Utils.LookupUser Utils.aliceSvc Utils.emptyCache ("alice")).value = 1000 ∧
    (Utils.LookupUser Utils.aliceSvc
      (Utils.LookupUser Utils.aliceSvc Utils.emptyCache ("alice")).state
      ("1000")).value = 1000 ∧
    (Utils.LookupUser Utils.aliceSvc
      (Utils.LookupUser Utils.aliceSvc
        (Utils.LookupUser Utils.aliceSvc Utils.emptyCache ("alice")).state
        ("1000")).state
      ("ghost")).value = -1 := by
  refine ⟨?_, by decide, by decide, by decide⟩
  intro svc st name n h1 h2 h3
  simp [Utils.LookupUser, h1, h2, h3]

/-- C3 witness: "42" is not cached, not resolvable by `aliceSvc`, and parses
as 42, so `LookupUser` returns 42. -/
theorem resolveUid_numeric_fallback_witness :
    (Utils.LookupUser Utils.aliceSvc Utils.emptyCache ("42")).value = 42 :=
  resolveUid_numeric_fallback.1 Utils.aliceSvc Utils.emptyCache ("42") 42 rfl
    (by decide) (by decide)

/-- C4: a name that is neither cached, nor resolvable by the identity
service, nor parseable as a decimal integer resolves to -1; the -1 is stored
under the name, and a second call with the same name returns -1 with zero
further identity queries. -/
theorem resolveUid_unresolved_neg_one (svc : Utils.IdentityService)
    (st : Utils.CacheState) (name : String)
    (h1 : Utils.alookup st.users name = none)
    (h2 : svc.lookup name = none)
    (h3 : Utils.atoi? name = none) :
    (Utils.LookupUser svc st name).value = -1 ∧
    Utils.alookup (Utils.LookupUser svc st name).state.users name = some (-1) ∧
    (Utils.LookupUser svc (Utils.LookupUser svc st name).state name).value = -1 ∧
    (Utils.LookupUser svc (Utils.LookupUser svc st name).state name).queries = 0 := by
  simp [Utils.LookupUser, Utils.alookup, h1, h2, h3]

/-- C4 witness: "ghost" is unknown to `aliceSvc` and not numeric, so the
fresh lookup returns -1. -/
theorem resolveUid_unresolved_neg_one_witness :
    (Utils.LookupUser Utils.aliceSvc Utils.emptyCache ("ghost")).value = -1 :=
  (resolveUid_unresolved_neg_one Utils.aliceSvc Utils.emptyCache ("ghost") rfl
    (by decide) (by decide)).1

/-- C5: the four resolution operations are total Lean functions (their result
types carry no error component, so no error can propagate to the caller), and
even when the identity service fails on an uncached key each operation still
returns the deterministic fallback: the decimal string of the id for the two
name lookups, and the parsed integer or -1 for the two id lookups. -/
theorem resolution_ops_total_fallback (svc : Utils.IdentityService)
    (st : Utils.CacheState) (uid gid : Int) (uname gname : String) :
    (Utils.alookup st.uids uid = none → svc.lookupId uid = none →
      (Utils.UserName svc st uid).value = Utils.itoa uid) ∧
    (Utils.alookup st.gids gid = none → svc.lookupGroupId gid = none →
      (Utils.GroupName svc st gid).value = Utils.itoa gid) ∧
    (Utils.alookup st.users uname = none → svc.lookup uname = none →
      (Utils.LookupUser svc st uname).value = (Utils.atoi? uname).getD (-1)) ∧
    (Utils.alookup st.groups gname = none → svc.lookupGroup gname = none →
      (Utils.LookupGroup svc st gname).value = (Utils.atoi? gname).getD (-1)) := by
  refine ⟨fun h1 h2 => ?_, fun h1 h2 => ?_, fun h1 h2 => ?_, fun h1 h2 => ?_⟩
  · simp [Utils.UserName, h1, h2]
  · simp [Utils.GroupName, h1, h2]
  · cases h3 : Utils.atoi? uname <;> simp [Utils.LookupUser, h1, h2, h3]
  · cases h3 : Utils.atoi? gname <;> simp [Utils.LookupGroup, h1, h2, h3]

/-- C5 witness: gid 8 is uncached and unknown to `aliceSvc`, so `GroupName`
returns the decimal string "8". -/
theorem resolution_ops_total_fallback_witness :
    (Utils.GroupName Utils.aliceSvc Utils.emptyCache 8).value = Utils.itoa 8 :=
  (resolution_ops_total_fallback Utils.aliceSvc Utils.emptyCache 7 8
    ("u") ("g")).2.1 rfl rfl

/-- C6: cache entries are immutable: every binding present in any of the four
mappings before a call to any of the four operations is still present, with
the same value, afterwards; and each operation leaves the state completely
unchanged when its key is already cached (it writes only on a cache miss). -/
theorem cache_entries_immutable (svc : Utils.IdentityService)
    (st : Utils.CacheState) (i : Int) (s : String) :
    Utils.cacheExtends st (Utils.UserName svc st i).state ∧
    Utils.cacheExtends st (Utils.GroupName svc st i).state ∧
    Utils.cacheExtends st (Utils.LookupUser svc st s).state ∧
    Utils.cacheExtends st (Utils.LookupGroup svc st s).state ∧
    (∀ v, Utils.alookup st.uids i = some v → (Utils.UserName svc st i).state = st) ∧
    (∀ v, Utils.alookup st.gids i = some v → (Utils.GroupName svc st i).state = st) ∧
    (∀ v, Utils.alookup st.users s = some v → (Utils.LookupUser svc st s).state = st) ∧
    (∀ v, Utils.alookup st.groups s = some v → (Utils.LookupGroup svc st s).state = st) := by
  refine ⟨Utils.userName_extends svc st i, Utils.groupName_extends svc st i,
    Utils.lookupUser_extends svc st s, Utils.lookupGroup_extends svc st s,
    fun v hv => ?_, fun v hv => ?_, fun v hv => ?_, fun v hv => ?_⟩
  · simp [Utils.UserName, hv]
  · simp [Utils.GroupName, hv]
  · simp [Utils.LookupUser, hv]
  · simp [Utils.LookupGroup, hv]

/-- C6 witness: the binding 5 ↦ "five" present in `cachedState.uids` is still
present after `UserName` resolves the unrelated uid 7. -/
theorem cache_entries_immutable_witness :
    Utils.alookup (Utils.UserName Utils.aliceSvc Utils.cachedState 7).state.uids 5
      = some ("five") :=
  (cache_entries_immutable Utils.aliceSvc Utils.cachedState 7 ("x")).1.1 5 ("five") rfl

/-- C7: the peripheral helpers propagate their underlying errors unchanged:
when the dial fails, `GetLocalIp` returns the empty string together with
exactly the dial's error; when the dial succeeds but the host/port split of
the local address fails, it returns the empty string together with exactly
the split's error; and whenever the wrapped function completes before the
timer fires, `WithTimeout` returns the function's error value unchanged. -/
theorem peripheral_error_propagation :
    (∀ (E : Type) (dial : String → Except E String)
        (splitHostPort : String → Except E (String × String)) (address : String) (e : E),
      dial address = Except.error e →
      Utils.GetLocalIp dial splitHostPort address = ("", some e)) ∧
    (∀ (E : Type) (dial : String → Except E String)
        (splitHostPort : String → Except E (String × String))
        (address localAddr : String) (e : E),
      dial address = Except.ok localAddr →
      splitHostPort localAddr = Except.error e →
      Utils.GetLocalIp dial splitHostPort address = ("", some e)) ∧
    (∀ (E : Type) (fResult : Option E) (timeoutErr : E),
      Utils.WithTimeout fResult timeoutErr true = fResult) := by
  refine ⟨fun E dial sp address e h => ?_, fun E dial sp address la e h1 h2 => ?_,
    fun E fResult timeoutErr => ?_⟩
  · simp [Utils.GetLocalIp, h]
  · simp [Utils.GetLocalIp, h1, h2]
  · rfl

/-- C7 witness: a dial that always fails with error 0 makes `GetLocalIp`
return the pair of the empty string and that error. -/
theorem peripheral_error_propagation_witness :
    Utils.GetLocalIp (fun _ => (Except.error 0 : Except Nat String))
      (fun _ => (Except.error 1 : Except Nat (String × String))) ("addr")
      = ("", some 0) :=
  peripheral_error_propagation.1 Nat (fun _ => (Except.error 0 : Except Nat String))
    (fun _ => (Except.error 1 : Except Nat (String × String))) ("addr") 0 rfl

/-- C9: `Exists` returns true when the stat succeeds, returns true when the
stat fails with an error that is not a does-not-exist error, and returns
false exactly in the remaining case: the stat fails with a does-not-exist
error. -/
theorem exists_stat_error_behavior (stat : String → Option Utils.StatErr)
    (path : String) :
    (stat path = none → Utils.Exists stat path = true) ∧
    (∀ e, stat path = some e → e.isNotExist = false → Utils.Exists stat path = true) ∧
    (∀ e, stat path = some e → e.isNotExist = true → Utils.Exists stat path = false) := by
  refine ⟨fun h => ?_, fun e h he => ?_, fun e h he => ?_⟩
  · simp [Utils.Exists, h]
  · simp [Utils.Exists, h, he]
  · simp [Utils.Exists, h, he]

/-- C9 witness: a stat that fails with a permission-style error (not a
does-not-exist error) still makes `Exists` return true. -/
theorem exists_stat_error_behavior_witness :
    Utils.Exists (fun _ => some (Utils.StatErr.mk false)) ("p") = true :=
  (exists_stat_error_behavior (fun _ => some (Utils.StatErr.mk false)) ("p")).2.1
    (Utils.StatErr.mk false) rfl rfl

namespace Utils

/-- The character scan of `indexOfAux` for a single-character pattern agrees
with `firstIdx`, shifted by the starting offset. -/
theorem indexOfAux_single (c : Char) (s : List Char) :
    ∀ i : Nat, indexOfAux [c] s i = (firstIdx s c).map (fun n => n + i) := by
  induction s with
  | nil => intro i; simp [indexOfAux, firstIdx, List.isPrefixOf]
  | cons x rest ih =>
    intro i
    by_cases hxc : x = c
    · subst hxc
      simp [indexOfAux, firstIdx, List.isPrefixOf]
    · have hpre : ([c].isPrefixOf (x :: rest)) = false := by
        simp [List.isPrefixOf]
        exact fun h => hxc h.symm
      simp only [indexOfAux, hpre, Bool.false_eq_true, if_false, firstIdx, ih (i + 1)]
      rw [if_neg hxc]
      cases hr : firstIdx rest c with
      | none => simp [hr]
      | some m => simp [hr]; omega

/-- `strings.Index` for a single character returns -1 exactly when `firstIdx`
finds nothing. -/
theorem indexOf_single_none {s : List Char} {c : Char} (h : firstIdx s c = none) :
    indexOf s [c] = -1 := by
  simp [indexOf, indexOfAux_single, h]

/-- `strings.Index` for a single character returns the `firstIdx` position. -/
theorem indexOf_single_some {s : List Char} {c : Char} {n : Nat}
    (h : firstIdx s c = some n) :
    indexOf s [c] = (n : Int) := by
  simp [indexOf, indexOfAux_single, h]

/-- A character that does not occur in the list has no first index. -/
theorem firstIdx_none_of_not_mem {s : List Char} {c : Char} (h : c ∉ s) :
    firstIdx s c = none := by
  induction s with
  | nil => rfl
  | cons x rest ih =>
    simp only [List.mem_cons, not_or] at h
    have hxc : ¬ (x = c) := fun he => h.1 he.symm
    simp [firstIdx, hxc, ih h.2]

/-- `firstIdx` finds an occurrence, and the earliest one. -/
theorem firstIdx_spec {s : List Char} {c : Char} {n : Nat}
    (h : firstIdx s c = some n) :
    s[n]? = some c ∧ ∀ k, k < n → s[k]? ≠ some c := by
  induction s generalizing n with
  | nil => cases h
  | cons x rest ih =>
    by_cases hxc : x = c
    · subst hxc
      simp [firstIdx] at h
      subst h
      exact ⟨by simp, fun k hk => absurd hk (Nat.not_lt_zero k)⟩
    · simp only [firstIdx, if_neg hxc] at h
      cases hr : firstIdx rest c with
      | none => rw [hr] at h; cases h
      | some m =>
        rw [hr] at h
        simp at h
        subst h
        obtain ⟨h1, h2⟩ := ih hr
        refine ⟨by simp only [List.getElem?_cons_succ]; exact h1, fun k hk => ?_⟩
        cases k with
        | zero => simp; exact fun he => hxc he
        | succ k' =>
          simp only [List.getElem?_cons_succ]
          exact h2 k' (by omega)

/-- Conversely, the position of an occurrence that is preceded by no
occurrence is the first index. -/
theorem firstIdx_of_spec {s : List Char} {c : Char} {n : Nat}
    (h1 : s[n]? = some c) (h2 : ∀ k, k < n → s[k]? ≠ some c) :
    firstIdx s c = some n := by
  induction s generalizing n with
  | nil => cases h1
  | cons x rest ih =>
    cases n with
    | zero =>
      simp at h1
      simp [firstIdx, h1]
    | succ m =>
      have hxc : ¬ (x = c) := by
        have h0 := h2 0 (Nat.succ_pos m)
        simp at h0
        exact h0
      simp only [List.getElem?_cons_succ] at h1
      have hmin : ∀ k, k < m → rest[k]? ≠ some c := by
        intro k hk
        have hs := h2 (k + 1) (by omega)
        simpa using hs
      simp [firstIdx, hxc, ih h1 hmin]

/-- The `sp` computed by `RemovePassword` (index just past `://`, with the
absent case folded to 0 via the Go idiom `Index(...)+3 == 2`) equals
`schemeStart`. -/
theorem removePassword_sp (uri : List Char) :
    (if indexOf uri [':', '/', '/'] + 3 = 2 then (0 : Int)
     else indexOf uri [':', '/', '/'] + 3) = (schemeStart uri : Int) := by
  unfold indexOf schemeStart
  cases h : indexOfAux [':', '/', '/'] uri 0 with
  | none => norm_num
  | some n =>
    have hne : ((n : Int) + 3) ≠ 2 := by omega
    simp [hne]

/-- Normal form of `RemovePassword` once the first `@` is known to sit at
position `p`. -/
theorem removePassword_eq_of_atSign {uri : List Char} {p : Nat}
    (hp : firstIdx uri '@' = some p) :
    RemovePassword uri =
      (if indexOf (uri.drop (schemeStart uri)) [':'] < 0
          ∨ (schemeStart uri : Int) + indexOf (uri.drop (schemeStart uri)) [':'] > (p : Int)
       then uri
       else uri.take ((schemeStart uri : Int)
              + indexOf (uri.drop (schemeStart uri)) [':']).toNat
            ++ [':', '*', '*', '*', '*'] ++ uri.drop p) := by
  have hpidx : indexOf uri ['@'] = (p : Int) := indexOf_single_some hp
  have hnotlt : ¬ ((p : Int) < 0) := by omega
  unfold RemovePassword
  rw [hpidx, if_neg hnotlt]
  simp only [removePassword_sp, Int.toNat_ofNat]

end Utils

/-- C10: `RemovePassword` returns its input unchanged when the input contains
no `@`; given the first `@` at position `p`, it also returns the input
unchanged when no `:` occurs at or after the scheme start (just past `://`,
or 0 without a scheme) and before that `@`; and when the first such `:` sits
at position `j` before the `@`, it returns the input with the text strictly
between that `:` and the first `@` replaced by `****`. -/
theorem removePassword_redaction (uri : List Char) :
    ('@' ∉ uri → Utils.RemovePassword uri = uri) ∧
    (∀ p, Utils.firstIdx uri '@' = some p →
      ((∀ i, Utils.schemeStart uri ≤ i → i < p → uri[i]? ≠ some ':') →
        Utils.RemovePassword uri = uri) ∧
      (∀ j, Utils.schemeStart uri ≤ j → j < p → uri[j]? = some ':' →
        (∀ i, Utils.schemeStart uri ≤ i → i < j → uri[i]? ≠ some ':') →
        Utils.RemovePassword uri
          = uri.take j ++ [':', '*', '*', '*', '*'] ++ uri.drop p)) := by
  constructor
  · intro hmem
    have h1 : Utils.firstIdx uri '@' = none := Utils.firstIdx_none_of_not_mem hmem
    have h2 : Utils.indexOf uri ['@'] = -1 := Utils.indexOf_single_none h1
    unfold Utils.RemovePassword
    rw [h2]
    norm_num
  · intro p hp
    have hpe : uri[p]? = some '@' := (Utils.firstIdx_spec hp).1
    constructor
    · intro hnone
      cases hcp : Utils.firstIdx (uri.drop (Utils.schemeStart uri)) ':' with
      | none =>
        have hcpi : Utils.indexOf (uri.drop (Utils.schemeStart uri)) [':'] = -1 :=
          Utils.indexOf_single_none hcp
        rw [Utils.removePassword_eq_of_atSign hp, hcpi]
        norm_num
      | some m =>
        have hcpi : Utils.indexOf (uri.drop (Utils.schemeStart uri)) [':'] = (m : Int) :=
          Utils.indexOf_single_some hcp
        have hm : uri[Utils.schemeStart uri + m]? = some ':' := by
          have hm0 := (Utils.firstIdx_spec hcp).1
          rwa [List.getElem?_drop] at hm0
        have hge : p ≤ Utils.schemeStart uri + m := by
          by_contra hlt
          push_neg at hlt
          exact hnone (Utils.schemeStart uri + m) (Nat.le_add_right _ _) hlt hm
        have hne : Utils.schemeStart uri + m ≠ p := by
          intro he
          rw [he, hpe] at hm
          simp at hm
        have hgt : (Utils.schemeStart uri : Int) + (m : Int) > (p : Int) := by omega
        rw [Utils.removePassword_eq_of_atSign hp, hcpi]
        rw [if_pos (Or.inr hgt)]
    · intro j hspj hjp hjc hmin
      have hj' : Utils.firstIdx (uri.drop (Utils.schemeStart uri)) ':'
          = some (j - Utils.schemeStart uri) := by
        apply Utils.firstIdx_of_spec
        · rw [List.getElem?_drop]
          have hadd : Utils.schemeStart uri + (j - Utils.schemeStart uri) = j := by omega
          rw [hadd]
          exact hjc
        · intro k hk
          rw [List.getElem?_drop]
          exact hmin (Utils.schemeStart uri + k) (Nat.le_add_right _ _) (by omega)
      have hcpi : Utils.indexOf (uri.drop (Utils.schemeStart uri)) [':']
          = ((j - Utils.schemeStart uri : Nat) : Int) := Utils.indexOf_single_some hj'
      rw [Utils.removePassword_eq_of_atSign hp, hcpi]
      have hguard : ¬ ((((j - Utils.schemeStart uri : Nat) : Int) < 0)
          ∨ ((Utils.schemeStart uri : Int) + ((j - Utils.schemeStart uri : Nat) : Int)
              > (p : Int))) := by
        push_neg
        refine ⟨by omega, by omega⟩
      rw [if_neg hguard]
      have hsum : ((Utils.schemeStart uri : Int)
          + ((j - Utils.schemeStart uri : Nat) : Int)).toNat = j := by omega
      rw [hsum]

/-- C10 witness: in `redis://u:pw@h` the first `@` is at 12, the scheme
starts at 8, the first `:` at or after 8 is at 9, and the password `pw` is
replaced by `****`. -/
theorem removePassword_redaction_witness :
    Utils.RemovePassword (("redis://u:pw@h").data) = ("redis://u:****@h").data := by
  have h := ((removePassword_redaction (("redis://u:pw@h").data)).2 12 (by decide)).2 9
    (by decide) (by decide) (by decide)
    (by
      intro i h1 h2
      have hs : Utils.schemeStart (("redis://u:pw@h").data) = 8 := by decide
      rw [hs] at h1
      have he : i = 8 := by omega
      subst he
      decide)
  rw [h]
  decide
